import Mathlib

/-!
Shallow embedding of the DATLLMARCH discovery pipeline.

Python floats are modelled as rationals (`ℚ`); Python `int(x)` (truncation
toward zero) is `pyInt`.  A Python dict holding an architecture configuration
is modelled as an association list `Config` with first-match lookup and an
in-place `setKey` that mirrors dict assignment.  Values occurring in the
repository's configurations are ints, floats and strings, so `Value` has
exactly those constructors.  Display-only strings produced with float
formatting (the analyzer's `summary`) are not modelled: no claim refers
to their contents.
-/

namespace DatLLMArch

/-- A configuration/dict value: Python int, float or str. -/
inductive Value where
  | vInt : ℤ → Value
  | vFloat : ℚ → Value
  | vStr : String → Value
deriving DecidableEq, Repr

/-- A Python dict from string keys to values, as an association list
(first binding wins on lookup, mirroring dict key uniqueness). -/
abbrev Config := List (String × Value)

/-- Python dict assignment `d[k] = v`: replace the binding if the key is
present, otherwise append the new binding at the end. -/
def setKey : Config → String → Value → Config
  | [], k, v => [(k, v)]
  | (k', v') :: rest, k, v =>
      if k' = k then (k, v) :: rest else (k', v') :: setKey rest k v

/-- Numeric content of a value (`isinstance(x, (int, float))` plus the
coercion used in arithmetic); `none` for a non-numeric value. -/
def toQ : Value → Option ℚ
  | .vInt n => (n : ℚ)
  | .vFloat q => q
  | .vStr _ => none

/-- Python `int(x)` on a float: truncation toward zero
(floor for nonnegative values, ceiling `-⌊-x⌋` for negative ones). -/
def pyInt (q : ℚ) : ℤ := if 0 ≤ q then q.floor else -(-q).floor

/-- Python `f"{n:07d}"`: decimal digits left-padded with zeros to width 7. -/
def pad7 (n : ℕ) : String :=
  let s := toString n
  ⟨List.replicate (7 - s.length) '0'⟩ ++ s

/-! ### Proposer: `ArchitectureEvolver.evolve` (src/pipeline/evolve.py)

The randomness source is made explicit: `Draws` carries the outcome of each
`random.gauss(0, noise_scale)` call (one per recognized key, an arbitrary
rational — the Gaussian's support is unbounded and the scale only shapes its
distribution) and the outcome of `random.randint(0, 10_000_000)`. -/

/-- Outcomes of the random draws consumed by one `evolve` call. -/
structure Draws where
  gHidden : ℚ
  gLayers : ℚ
  gHeads : ℚ
  idDraw : ℕ
deriving DecidableEq, Repr

/-- One iteration of the loop body in `evolve` for key `key` with valid range
`[low, high]`: if the key is present with a numeric value, add
`int(gauss * range_size)` and clamp-then-truncate into the range; otherwise
set the key to `int((low + high) / 2)`. -/
def evolveStep (c : Config) (key : String) (low high : ℤ) (g : ℚ) : Config :=
  match (List.lookup key c).bind toQ with
  | some v =>
      let noise : ℤ := pyInt (g * ((high : ℚ) - (low : ℚ)))
      let newValue : ℚ := v + (noise : ℚ)
      setKey c key (.vInt (pyInt (max (low : ℚ) (min (high : ℚ) newValue))))
  | none => setKey c key (.vInt (pyInt (((low : ℚ) + (high : ℚ)) / 2)))

/-- `ArchitectureEvolver.evolve`: deep-copy the parent (value semantics make
the copy implicit here), mutate the three recognized numeric keys in
dict-iteration order (`hidden_size`, then `num_layers`, then `num_heads`),
then tag the result with the freshly formatted id
`f"arch_{random.randint(0, 10_000_000):07d}"`. -/
def evolve (parent : Config) (d : Draws) : Config :=
  setKey
    (evolveStep
      (evolveStep
        (evolveStep parent "hidden_size" 32 2048 d.gHidden)
        "num_layers" 1 48 d.gLayers)
      "num_heads" 1 32 d.gHeads)
    "id" (.vStr ("arch_" ++ pad7 d.idDraw))

/-! ### Scorer: `ArchitectureEvaluator.evaluate` (src/pipeline/eval.py)

The evaluator's effects are made explicit as arguments: `callResult` is the
outcome of `_call_llm` (`none` when the HTTP request, `raise_for_status`,
`r.json()` or the missing-field check raised, in which case `raw` keeps its
initial value `''`); `parseMetrics` abstracts the
strip-fences/`json.loads`/`float(metrics.get(...))` extraction applied to the
returned text (`none` when any of those steps raised); `r1 r2 r3` are the
outcomes of the three `random.random()` calls on the fallback path. -/

/-- Container for architecture evaluation metrics (`EvaluationResult`). -/
structure EvaluationResult where
  performance : ℚ
  novelty : ℚ
  complexity : ℚ
  raw_response : String
deriving DecidableEq, Repr

/-- The final `return` of `evaluate`: random scores and
`raw or 'fallback'` (the empty string is falsy in Python). -/
def fallbackResult (raw : String) (r1 r2 r3 : ℚ) : EvaluationResult :=
  ⟨r1, r2, r3, if raw = "" then "fallback" else raw⟩

/-- `ArchitectureEvaluator.evaluate` with explicit effect outcomes. -/
def evaluate (useLocal : Bool) (callResult : Option String)
    (parseMetrics : String → Option (ℚ × ℚ × ℚ)) (r1 r2 r3 : ℚ) :
    EvaluationResult :=
  if useLocal then
    match callResult with
    | some raw =>
        match parseMetrics raw with
        | some (p, n, c) => ⟨p, n, c, raw⟩
        | none => fallbackResult raw r1 r2 r3
    | none => fallbackResult "" r1 r2 r3
  else fallbackResult "" r1 r2 r3

/-! ### Reducer: `ArchitectureAnalyzer.analyze` (src/pipeline/analyze.py) -/

/-- `AnalysisReport`; the `summary` string (pure display text produced with
2-decimal float formatting) is not modelled. -/
structure AnalysisReport where
  architecture : Config
  evaluation : EvaluationResult
  composite_score : ℚ
deriving DecidableEq, Repr

/-- Spec-side clamp, for stating the composite-score formula. -/
def clampQ (x lo hi : ℚ) : ℚ := max lo (min hi x)

/-- `ArchitectureAnalyzer.analyze`: the weighted composite
`0.6*performance + 0.3*novelty - 0.1*complexity`, clamped by
`max(0.0, min(1.0, composite))`. -/
def analyze (architecture : Config) (evaluation : EvaluationResult) :
    AnalysisReport :=
  ⟨architecture, evaluation,
    max 0 (min 1 (0.6 * evaluation.performance + 0.3 * evaluation.novelty -
      0.1 * evaluation.complexity))⟩

/-! ### ResultStore: `DatabaseAPI` (src/database/mongodb_api.py)

The JSON results file is modelled as the list of its entries.  Entry fields
are optional because `sample_parent` reads them defensively with `dict.get`;
the `summary` field is omitted (display-only, never read back). -/

/-- One entry of the results file, as written by `save_result`. -/
structure StoredRecord where
  architecture : Option Config
  evaluation : Option EvaluationResult
  composite_score : Option ℚ
deriving DecidableEq, Repr

/-- The ranking key of `sample_parent`: `x.get('composite_score', 0)`. -/
def recordScore (r : StoredRecord) : ℚ := r.composite_score.getD 0

/-- Python's builtin `max(x :: xs, key = f)`: fold keeping the current best,
replacing it only on a strictly larger key, so the first of several maximal
elements wins. -/
def pyMaxBy {α : Type} (f : α → ℚ) (x : α) (xs : List α) : α :=
  xs.foldl (fun best y => if f best < f y then y else best) x

/-- The default baseline architecture returned on an empty history. -/
def baselineArch : Config :=
  [("id", .vStr "baseline"), ("hidden_size", .vInt 512),
   ("num_layers", .vInt 6), ("num_heads", .vInt 8)]

/-- The default of `best.get('architecture', {...})` — note: no `id` key. -/
def archDefault : Config :=
  [("hidden_size", .vInt 512), ("num_layers", .vInt 6), ("num_heads", .vInt 8)]

/-- `DatabaseAPI.sample_parent` on the loaded history. -/
def sample_parent (data : List StoredRecord) : Config :=
  match data with
  | [] => baselineArch
  | x :: xs => (pyMaxBy recordScore x xs).architecture.getD archDefault

/-- `DatabaseAPI.save_result`: append the report's entry to the history. -/
def save_result (data : List StoredRecord) (report : AnalysisReport) :
    List StoredRecord :=
  data ++ [⟨some report.architecture, some report.evaluation,
            some report.composite_score⟩]

/-! ### Advisory retrieval: `RAGService.query` (src/cognition_base/rag_service.py)

Python's `word in sent` substring test and `str.lower()`/`str.split()` are
modelled directly over the character lists of the strings. -/

/-- `leadMatch needle hay`: `needle` is an initial segment of `hay`. -/
def leadMatch : List Char → List Char → Bool
  | [], _ => true
  | _ :: _, [] => false
  | a :: as, b :: bs => (a == b) && leadMatch as bs

/-- `occursIn needle hay`: `needle` occurs contiguously in `hay`
(Python's `needle in hay` on strings). -/
def occursIn (needle : List Char) : List Char → Bool
  | [] => leadMatch needle []
  | c :: t => leadMatch needle (c :: t) || occursIn needle t

/-- Python `w in s` for strings. -/
def pyIn (w s : String) : Bool := occursIn w.data s.data

/-- Python `s.lower()` (ASCII case folding, as in `Char.toLower`). -/
def pyLower (s : String) : String := ⟨s.data.map Char.toLower⟩

/-- Python `s.split()`: split on whitespace runs, dropping empty pieces. -/
def pyWords (s : String) : List String :=
  ((s.data.splitOnP (fun c => c.isWhitespace)).map
    (fun l => (⟨l⟩ : String))).filter (fun w => w ≠ "")

/-- The default corpus installed by `RAGService.__init__`. -/
def defaultCorpus : List String :=
  ["Linear attention mechanisms can reduce the quadratic complexity " ++
     "of standard self‑attention by approximating the softmax kernel.",
   "Increasing the number of layers and hidden size typically improves " ++
     "model capacity but also increases compute requirements.",
   "Novel architectures should balance expressiveness with efficiency."]

/-- `RAGService.query`: keep the corpus sentences sharing a (lowercased)
question word as a substring; return the first `topK` of them, or the
first `topK` corpus sentences when none matched. -/
def query (corpus : List String) (question : String) (topK : ℕ) :
    List String :=
  let questionLower := pyLower question
  let results := corpus.filter (fun sent =>
    (pyWords questionLower).any (fun word => pyIn word (pyLower sent)))
  if results = [] then corpus.take topK else results.take topK

/-! ### Helper lemmas -/

theorem lookup_setKey_self (c : Config) (k : String) (v : Value) :
    List.lookup k (setKey c k v) = some v := by
  induction c with
  | nil => simp [setKey, List.lookup]
  | cons hd tl ih =>
      obtain ⟨k', v'⟩ := hd
      by_cases h : k' = k
      · simp [setKey, h, List.lookup]
      · simp only [setKey, if_neg h, List.lookup]
        have : (k == k') = false := by
          simp [beq_iff_eq]; exact fun hh => h hh.symm
        simp [this, ih]

theorem lookup_setKey_ne (c : Config) (k k' : String) (v : Value) (h : k' ≠ k) :
    List.lookup k' (setKey c k v) = List.lookup k' c := by
  have hb : (k' == k) = false := beq_eq_false_iff_ne.mpr h
  induction c with
  | nil =>
      simp [setKey, List.lookup, hb]
  | cons hd tl ih =>
      obtain ⟨k₀, v₀⟩ := hd
      by_cases h₀ : k₀ = k
      · subst h₀
        simp [setKey, List.lookup, hb]
      · simp only [setKey, if_neg h₀, List.lookup]
        cases hbeq : (k' == k₀) <;> simp [hbeq, ih]

/-- Batteries' `Rat.floor` is Mathlib's `⌊·⌋` on `ℚ`. -/
theorem ratFloor_eq_intFloor (q : ℚ) : q.floor = ⌊q⌋ :=
  (Rat.floor_def' q).trans Rat.floor_def.symm

/-- `pyInt` agrees with the floor on nonnegative rationals. -/
theorem pyInt_of_nonneg {q : ℚ} (h : 0 ≤ q) : pyInt q = ⌊q⌋ := by
  rw [pyInt, if_pos h, ratFloor_eq_intFloor]

theorem lookup_evolveStep_self (c : Config) (key : String) (low high : ℤ) (g : ℚ) :
    ∃ n : ℤ, List.lookup key (evolveStep c key low high g) = some (.vInt n) := by
  unfold evolveStep
  cases (List.lookup key c).bind toQ with
  | none => exact ⟨_, lookup_setKey_self ..⟩
  | some v => exact ⟨_, lookup_setKey_self ..⟩

theorem lookup_evolveStep_ne (c : Config) (key k' : String) (low high : ℤ) (g : ℚ)
    (h : k' ≠ key) :
    List.lookup k' (evolveStep c key low high g) = List.lookup k' c := by
  unfold evolveStep
  cases (List.lookup key c).bind toQ with
  | none => exact lookup_setKey_ne _ _ _ _ h
  | some v => exact lookup_setKey_ne _ _ _ _ h

/-- The clamp-then-truncate step lands in `[low, high]` whenever
`0 < low ≤ high` (true of all three recognized ranges). -/
theorem pyInt_clamp_mem (low high : ℤ) (x : ℚ) (h0 : 0 < low) (hlh : low ≤ high) :
    low ≤ pyInt (max (low : ℚ) (min (high : ℚ) x)) ∧
      pyInt (max (low : ℚ) (min (high : ℚ) x)) ≤ high := by
  set q : ℚ := max (low : ℚ) (min (high : ℚ) x) with hq
  have hlowq : (low : ℚ) ≤ q := le_max_left _ _
  have hqhigh : q ≤ (high : ℚ) := by
    apply max_le
    · exact_mod_cast hlh
    · exact min_le_left _ _
  have hq0 : 0 ≤ q := le_trans (by exact_mod_cast h0.le) hlowq
  rw [pyInt_of_nonneg hq0]
  constructor
  · exact Int.le_floor.mpr hlowq
  · have := Int.floor_le_floor hqhigh
    simpa using this

/-- The midpoint branch lands in `[low, high]` whenever `0 < low ≤ high`. -/
theorem pyInt_midpoint_mem (low high : ℤ) (h0 : 0 < low) (hlh : low ≤ high) :
    low ≤ pyInt (((low : ℚ) + (high : ℚ)) / 2) ∧
      pyInt (((low : ℚ) + (high : ℚ)) / 2) ≤ high := by
  have h2 : (0 : ℚ) < 2 := by norm_num
  have hlow : (low : ℚ) ≤ ((low : ℚ) + (high : ℚ)) / 2 := by
    rw [le_div_iff₀ h2]
    have : (low : ℚ) ≤ (high : ℚ) := by exact_mod_cast hlh
    linarith
  have hhigh : ((low : ℚ) + (high : ℚ)) / 2 ≤ (high : ℚ) := by
    rw [div_le_iff₀ h2]
    have : (low : ℚ) ≤ (high : ℚ) := by exact_mod_cast hlh
    linarith
  have hq0 : 0 ≤ ((low : ℚ) + (high : ℚ)) / 2 :=
    le_trans (by exact_mod_cast h0.le) hlow
  rw [pyInt_of_nonneg hq0]
  constructor
  · exact Int.le_floor.mpr hlow
  · simpa using Int.floor_le_floor hhigh

theorem evolveStep_mem (c : Config) (key : String) (low high : ℤ) (g : ℚ)
    (h0 : 0 < low) (hlh : low ≤ high) :
    ∃ n : ℤ, List.lookup key (evolveStep c key low high g) = some (.vInt n) ∧
      low ≤ n ∧ n ≤ high := by
  unfold evolveStep
  cases (List.lookup key c).bind toQ with
  | none =>
      refine ⟨_, lookup_setKey_self .., ?_, ?_⟩
      · exact (pyInt_midpoint_mem low high h0 hlh).1
      · exact (pyInt_midpoint_mem low high h0 hlh).2
  | some v =>
      refine ⟨_, lookup_setKey_self .., ?_, ?_⟩
      · exact (pyInt_clamp_mem low high _ h0 hlh).1
      · exact (pyInt_clamp_mem low high _ h0 hlh).2

theorem le_pyMaxBy {α : Type} (f : α → ℚ) (xs : List α) (x : α) :
    f x ≤ f (pyMaxBy f x xs) := by
  induction xs generalizing x with
  | nil => exact le_refl _
  | cons y ys ih =>
      have hstep : pyMaxBy f x (y :: ys) =
          pyMaxBy f (if f x < f y then y else x) ys := rfl
      rw [hstep]
      by_cases h : f x < f y
      · rw [if_pos h]; exact le_trans h.le (ih y)
      · rw [if_neg h]; exact ih x

/-- `pyMaxBy` returns the first element attaining the maximum key: the
decomposition puts strictly smaller keys before it and no larger key
after it. -/
theorem pyMaxBy_first_max {α : Type} (f : α → ℚ) (xs : List α) (x : α) :
    ∃ pre post, x :: xs = pre ++ pyMaxBy f x xs :: post ∧
      (∀ y ∈ pre, f y < f (pyMaxBy f x xs)) ∧
      (∀ y ∈ post, f y ≤ f (pyMaxBy f x xs)) := by
  induction xs generalizing x with
  | nil => exact ⟨[], [], rfl, by simp, by simp⟩
  | cons y ys ih =>
      have hstep : pyMaxBy f x (y :: ys) =
          pyMaxBy f (if f x < f y then y else x) ys := rfl
      by_cases h : f x < f y
      · obtain ⟨pre, post, hdec, hpre, hpost⟩ := ih y
        have hres : pyMaxBy f x (y :: ys) = pyMaxBy f y ys := by
          rw [hstep, if_pos h]
        refine ⟨x :: pre, post, ?_, ?_, ?_⟩
        · rw [hres, List.cons_append, ← hdec]
        · intro z hz
          rcases List.mem_cons.mp hz with hz | hz
          · subst hz
            rw [hres]
            exact lt_of_lt_of_le h (le_pyMaxBy f ys y)
          · rw [hres]; exact hpre z hz
        · intro z hz; rw [hres]; exact hpost z hz
      · obtain ⟨pre, post, hdec, hpre, hpost⟩ := ih x
        have hres : pyMaxBy f x (y :: ys) = pyMaxBy f x ys := by
          rw [hstep, if_neg h]
        cases pre with
        | nil =>
            simp only [List.nil_append] at hdec
            have hx : x = pyMaxBy f x ys := (List.cons.injEq _ _ _ _ ▸ hdec).1
            have hys : ys = post := (List.cons.injEq _ _ _ _ ▸ hdec).2
            refine ⟨[], y :: ys, ?_, by simp, ?_⟩
            · rw [hres, List.nil_append, ← hx]
            · intro z hz
              rcases List.mem_cons.mp hz with hz | hz
              · subst hz
                rw [hres, ← hx]
                exact not_lt.mp h
              · rw [hres]
                subst hys
                exact hpost z hz
        | cons p pre₂ =>
            simp only [List.cons_append] at hdec
            have hx : x = p := (List.cons.injEq _ _ _ _ ▸ hdec).1
            have hys : ys = pre₂ ++ pyMaxBy f x ys :: post :=
              (List.cons.injEq _ _ _ _ ▸ hdec).2
            have hxlt : f x < f (pyMaxBy f x ys) := by
              have hp := hpre p (List.mem_cons_self _ _)
              rwa [← hx] at hp
            refine ⟨x :: y :: pre₂, post, ?_, ?_, ?_⟩
            · rw [hres, List.cons_append, List.cons_append, ← hys]
            · intro z hz
              rcases List.mem_cons.mp hz with hz | hz
              · subst hz; rw [hres]; exact hxlt
              · rcases List.mem_cons.mp hz with hz' | hz'
                · subst hz'
                  rw [hres]
                  exact lt_of_le_of_lt (not_lt.mp h) hxlt
                · rw [hres]
                  exact hpre z (List.mem_cons_of_mem _ hz')
            · intro z hz; rw [hres]; exact hpost z hz

/-- `pyInt` is the identity on integers. -/
theorem pyInt_intCast (n : ℤ) : pyInt ((n : ℚ)) = n := by
  by_cases h : 0 ≤ ((n : ℚ))
  · rw [pyInt_of_nonneg h, Int.floor_intCast]
  · rw [pyInt, if_neg h, ratFloor_eq_intFloor]
    have hcast : (-(n : ℚ)) = ((-n : ℤ) : ℚ) := by push_cast; ring
    rw [hcast, Int.floor_intCast, neg_neg]

/-- `pyInt` is determined by integer bounds on a nonnegative argument. -/
theorem pyInt_eq_of_bounds (q : ℚ) (m : ℤ) (h0 : 0 ≤ q) (hl : (m : ℚ) ≤ q)
    (hu : q < (m : ℚ) + 1) : pyInt q = m := by
  rw [pyInt_of_nonneg h0]
  refine Int.floor_eq_iff.mpr ⟨hl, ?_⟩
  exact_mod_cast hu

/-- A key that is absent or bound to a non-numeric (string) value yields
`none` under the numeric read performed by `evolveStep`. -/
theorem bind_toQ_none {c : Config} {key : String}
    (h : List.lookup key c = none ∨ ∃ s, List.lookup key c = some (.vStr s)) :
    (List.lookup key c).bind toQ = none := by
  rcases h with h | ⟨s, h⟩ <;> simp [h, toQ]

/-- On the absent-or-non-numeric path, `evolveStep` installs the truncated
midpoint of the range. -/
theorem lookup_evolveStep_default (c : Config) (key : String) (low high : ℤ)
    (g : ℚ) (h : (List.lookup key c).bind toQ = none) :
    List.lookup key (evolveStep c key low high g) =
      some (.vInt (pyInt (((low : ℚ) + (high : ℚ)) / 2))) := by
  unfold evolveStep
  rw [h]
  exact lookup_setKey_self _ _ _

/-! ### Claim theorems -/

/-- C1: for every candidate configuration and every score set, the analyzer's
composite score equals `clamp(0.6*performance + 0.3*novelty - 0.1*complexity, 0, 1)`
and in particular lies in `[0, 1]` inclusive for any (finite) inputs,
including out-of-range or negative score values. -/
theorem analyze_composite_clamped (architecture : Config)
    (evaluation : EvaluationResult) :
    (analyze architecture evaluation).composite_score =
      clampQ (0.6 * evaluation.performance + 0.3 * evaluation.novelty -
        0.1 * evaluation.complexity) 0 1 ∧
    0 ≤ (analyze architecture evaluation).composite_score ∧
    (analyze architecture evaluation).composite_score ≤ 1 := by
  refine ⟨rfl, le_max_left _ _, max_le (by norm_num) (min_le_left _ _)⟩

/-- C3: the evaluator never raises (it is a total function of the explicit
effect outcomes); each failure mode of the external call — the call raising
(`callResult = none`), the call returning unparsable text, or the
external-oracle flag being disabled — produces the random fallback result,
whose three scores are the `random.random()` draws (hence in `[0,1)`) and
whose diagnostic is the raw text received if any, else the fixed marker
`"fallback"`. -/
theorem evaluate_degrades_gracefully (useLocal : Bool)
    (callResult : Option String) (parseMetrics : String → Option (ℚ × ℚ × ℚ))
    (r1 r2 r3 : ℚ) (h1 : 0 ≤ r1) (h1' : r1 < 1) (h2 : 0 ≤ r2) (h2' : r2 < 1)
    (h3 : 0 ≤ r3) (h3' : r3 < 1) :
    (useLocal = false →
      evaluate useLocal callResult parseMetrics r1 r2 r3 =
        fallbackResult "" r1 r2 r3) ∧
    (useLocal = true → callResult = none →
      evaluate useLocal callResult parseMetrics r1 r2 r3 =
        fallbackResult "" r1 r2 r3) ∧
    (∀ raw, useLocal = true → callResult = some raw → parseMetrics raw = none →
      evaluate useLocal callResult parseMetrics r1 r2 r3 =
        fallbackResult raw r1 r2 r3) ∧
    (∀ raw,
      0 ≤ (fallbackResult raw r1 r2 r3).performance ∧
      (fallbackResult raw r1 r2 r3).performance < 1 ∧
      0 ≤ (fallbackResult raw r1 r2 r3).novelty ∧
      (fallbackResult raw r1 r2 r3).novelty < 1 ∧
      0 ≤ (fallbackResult raw r1 r2 r3).complexity ∧
      (fallbackResult raw r1 r2 r3).complexity < 1) ∧
    (fallbackResult "" r1 r2 r3).raw_response = "fallback" ∧
    (∀ raw, raw ≠ "" → (fallbackResult raw r1 r2 r3).raw_response = raw) := by
  refine ⟨?_, ?_, ?_, ?_, ?_, ?_⟩
  · intro h; simp [evaluate, h]
  · intro hu hc; simp [evaluate, hu, hc]
  · intro raw hu hc hp; simp [evaluate, hu, hc, hp]
  · intro raw; exact ⟨h1, h1', h2, h2', h3, h3'⟩
  · simp [fallbackResult]
  · intro raw hraw; simp [fallbackResult, hraw]

/-- C3 witness: with the oracle flag disabled and fallback draws 0, 0, 0,
the evaluator returns the fallback result. -/
theorem evaluate_degrades_gracefully_witness :
    (0 : ℚ) ≤ 0 ∧ (0 : ℚ) < 1 ∧
    ((false = false) →
      evaluate false none (fun _ => none) 0 0 0 = fallbackResult "" 0 0 0) :=
  ⟨by decide, by decide,
    (evaluate_degrades_gracefully false none (fun _ => none) 0 0 0
      (by decide) (by decide) (by decide) (by decide) (by decide) (by decide)).1⟩

/-- C5 counterexample: on the empty history, the configuration returned by
`sample_parent` does carry an `id` key (bound to the fixed string
`"baseline"`), contradicting the claim that it carries no id. -/
theorem sample_parent_empty_id_counterexample :
    List.lookup "id" (sample_parent ([] : List StoredRecord)) =
      some (.vStr "baseline") := by decide

/-- C5 amended: for the empty history, `sample_parent` returns exactly the
fixed baseline configuration `{id: 'baseline', hidden_size: 512,
num_layers: 6, num_heads: 8}` — carrying the fixed id `'baseline'` — and
never fails: empty history is a valid initial state, not an error. -/
theorem sample_parent_empty_baseline :
    sample_parent ([] : List StoredRecord) =
      [("id", .vStr "baseline"), ("hidden_size", .vInt 512),
       ("num_layers", .vInt 6), ("num_heads", .vInt 8)] := rfl

/-- C6: for every parent configuration (including out-of-range parents) and
every outcome of the Gaussian draws, each recognized numeric parameter of
the proposed candidate lies within its declared closed range. -/
theorem evolve_params_in_range (parent : Config) (d : Draws) :
    (∃ a : ℤ, List.lookup "hidden_size" (evolve parent d) = some (.vInt a) ∧
      32 ≤ a ∧ a ≤ 2048) ∧
    (∃ b : ℤ, List.lookup "num_layers" (evolve parent d) = some (.vInt b) ∧
      1 ≤ b ∧ b ≤ 48) ∧
    (∃ c : ℤ, List.lookup "num_heads" (evolve parent d) = some (.vInt c) ∧
      1 ≤ c ∧ c ≤ 32) := by
  unfold evolve
  refine ⟨?_, ?_, ?_⟩
  · rw [lookup_setKey_ne _ _ _ _ (by decide),
        lookup_evolveStep_ne _ _ _ _ _ _ (by decide),
        lookup_evolveStep_ne _ _ _ _ _ _ (by decide)]
    exact evolveStep_mem _ _ _ _ _ (by norm_num) (by norm_num)
  · rw [lookup_setKey_ne _ _ _ _ (by decide),
        lookup_evolveStep_ne _ _ _ _ _ _ (by decide)]
    exact evolveStep_mem _ _ _ _ _ (by norm_num) (by norm_num)
  · rw [lookup_setKey_ne _ _ _ _ (by decide)]
    exact evolveStep_mem _ _ _ _ _ (by norm_num) (by norm_num)

/-- C7: the evolver is a pure function of the parent (the source deep-copies
it, so the parent argument is never mutated), and every key other than
`hidden_size`, `num_layers`, `num_heads` and `id` keeps in the candidate the
exact value it has in the parent. -/
theorem evolve_preserves_other_keys (parent : Config) (d : Draws) (k : String)
    (h1 : k ≠ "hidden_size") (h2 : k ≠ "num_layers") (h3 : k ≠ "num_heads")
    (h4 : k ≠ "id") :
    List.lookup k (evolve parent d) = List.lookup k parent := by
  unfold evolve
  rw [lookup_setKey_ne _ _ _ _ h4, lookup_evolveStep_ne _ _ _ _ _ _ h3,
      lookup_evolveStep_ne _ _ _ _ _ _ h2, lookup_evolveStep_ne _ _ _ _ _ _ h1]

/-- C7 witness: the unrecognized key `"extra"` survives evolution with the
identical value. -/
theorem evolve_preserves_other_keys_witness :
    ("extra" ≠ "hidden_size") ∧ ("extra" ≠ "num_layers") ∧
    ("extra" ≠ "num_heads") ∧ ("extra" ≠ "id") ∧
    List.lookup "extra" (evolve [("extra", Value.vStr "v")] ⟨0, 0, 0, 0⟩) =
      List.lookup "extra" ([("extra", Value.vStr "v")] : Config) :=
  ⟨by decide, by decide, by decide, by decide,
    evolve_preserves_other_keys [("extra", Value.vStr "v")] ⟨0, 0, 0, 0⟩ "extra"
      (by decide) (by decide) (by decide) (by decide)⟩

/-- C8 counterexample: the generated id is `"arch_"` followed by the
zero-padded random draw, so when the parent's id is such a string and the
draw repeats it, the candidate's id equals the parent's id — refuting that
the fresh id is never equal to the parent's. -/
theorem evolve_id_collision_counterexample :
    List.lookup "id" (evolve [("id", Value.vStr "arch_0000042")] ⟨0, 0, 0, 42⟩) =
      List.lookup "id" ([("id", Value.vStr "arch_0000042")] : Config) := by
  unfold evolve
  rw [lookup_setKey_self]
  decide

/-- C8 amended: the candidate's id is freshly computed from the random draw
(the string `"arch_"` followed by the draw zero-padded to seven digits) and
overwrites the parent's id, but it is not guaranteed distinct: it differs
from the parent's id exactly when the parent's id is not that very string. -/
theorem evolve_id_fresh_format (parent : Config) (d : Draws) :
    List.lookup "id" (evolve parent d) =
      some (.vStr ("arch_" ++ pad7 d.idDraw)) ∧
    (List.lookup "id" parent ≠ some (.vStr ("arch_" ++ pad7 d.idDraw)) →
      List.lookup "id" (evolve parent d) ≠ List.lookup "id" parent) := by
  constructor
  · unfold evolve
    exact lookup_setKey_self _ _ _
  · intro hne heq
    apply hne
    rw [← heq]
    unfold evolve
    exact lookup_setKey_self _ _ _

/-- C8 amended witness: a parent whose id is not the generated string gets a
different id. -/
theorem evolve_id_fresh_format_witness :
    (List.lookup "id" ([("id", Value.vStr "x")] : Config) ≠
      some (Value.vStr ("arch_" ++ pad7 0))) ∧
    List.lookup "id" (evolve [("id", Value.vStr "x")] ⟨0, 0, 0, 0⟩) ≠
      List.lookup "id" ([("id", Value.vStr "x")] : Config) :=
  ⟨by decide,
    (evolve_id_fresh_format [("id", Value.vStr "x")] ⟨0, 0, 0, 0⟩).2 (by decide)⟩

/-- C4: a recognized numeric parameter that is absent from the parent, or
present with a non-numeric value, is set in the candidate to the
truncating-integer-division midpoint of its range: `hidden_size → 1040`,
`num_layers → 24`, `num_heads → 16`. -/
theorem evolve_default_midpoint (parent : Config) (d : Draws) :
    ((List.lookup "hidden_size" parent = none ∨
        ∃ s, List.lookup "hidden_size" parent = some (.vStr s)) →
      List.lookup "hidden_size" (evolve parent d) = some (.vInt 1040)) ∧
    ((List.lookup "num_layers" parent = none ∨
        ∃ s, List.lookup "num_layers" parent = some (.vStr s)) →
      List.lookup "num_layers" (evolve parent d) = some (.vInt 24)) ∧
    ((List.lookup "num_heads" parent = none ∨
        ∃ s, List.lookup "num_heads" parent = some (.vStr s)) →
      List.lookup "num_heads" (evolve parent d) = some (.vInt 16)) := by
  refine ⟨?_, ?_, ?_⟩
  · intro h
    unfold evolve
    rw [lookup_setKey_ne _ _ _ _ (by decide),
        lookup_evolveStep_ne _ _ _ _ _ _ (by decide),
        lookup_evolveStep_ne _ _ _ _ _ _ (by decide),
        lookup_evolveStep_default _ _ _ _ _ (bind_toQ_none h),
        pyInt_eq_of_bounds _ 1040 (by norm_num) (by norm_num) (by norm_num)]
  · intro h
    have hc : (List.lookup "num_layers"
        (evolveStep parent "hidden_size" 32 2048 d.gHidden)).bind toQ = none := by
      rw [lookup_evolveStep_ne _ _ _ _ _ _ (by decide)]
      exact bind_toQ_none h
    unfold evolve
    rw [lookup_setKey_ne _ _ _ _ (by decide),
        lookup_evolveStep_ne _ _ _ _ _ _ (by decide),
        lookup_evolveStep_default _ _ _ _ _ hc,
        pyInt_eq_of_bounds _ 24 (by norm_num) (by norm_num) (by norm_num)]
  · intro h
    have hc : (List.lookup "num_heads"
        (evolveStep (evolveStep parent "hidden_size" 32 2048 d.gHidden)
          "num_layers" 1 48 d.gLayers)).bind toQ = none := by
      rw [lookup_evolveStep_ne _ _ _ _ _ _ (by decide),
          lookup_evolveStep_ne _ _ _ _ _ _ (by decide)]
      exact bind_toQ_none h
    unfold evolve
    rw [lookup_setKey_ne _ _ _ _ (by decide),
        lookup_evolveStep_default _ _ _ _ _ hc,
        pyInt_eq_of_bounds _ 16 (by norm_num) (by norm_num) (by norm_num)]

/-- C4 witness: a parent with a non-numeric `hidden_size` and no
`num_layers`/`num_heads` receives 1040, 24 and 16. -/
theorem evolve_default_midpoint_witness :
    (List.lookup "hidden_size" ([("hidden_size", Value.vStr "x")] : Config) =
        none ∨
      ∃ s, List.lookup "hidden_size" ([("hidden_size", Value.vStr "x")] : Config) =
        some (.vStr s)) ∧
    List.lookup "hidden_size" (evolve [("hidden_size", Value.vStr "x")] ⟨0, 0, 0, 0⟩) =
      some (.vInt 1040) ∧
    List.lookup "num_layers" (evolve [("hidden_size", Value.vStr "x")] ⟨0, 0, 0, 0⟩) =
      some (.vInt 24) ∧
    List.lookup "num_heads" (evolve [("hidden_size", Value.vStr "x")] ⟨0, 0, 0, 0⟩) =
      some (.vInt 16) :=
  ⟨Or.inr ⟨"x", by decide⟩,
    (evolve_default_midpoint [("hidden_size", Value.vStr "x")] ⟨0, 0, 0, 0⟩).1
      (Or.inr ⟨"x", by decide⟩),
    (evolve_default_midpoint [("hidden_size", Value.vStr "x")] ⟨0, 0, 0, 0⟩).2.1
      (Or.inl (by decide)),
    (evolve_default_midpoint [("hidden_size", Value.vStr "x")] ⟨0, 0, 0, 0⟩).2.2
      (Or.inl (by decide))⟩

/-- C2: on a non-empty history of well-formed records, `sample_parent`
returns the `architecture` entry of the record whose `composite_score` is
maximal over the entire history, ties broken in favor of the first-seen
record: the history decomposes around the chosen record with strictly
smaller scores before it and no larger score after it. -/
theorem sample_parent_picks_first_max (data : List StoredRecord)
    (hne : data ≠ [])
    (hwf : ∀ r ∈ data, (∃ c, r.architecture = some c) ∧
      ∃ q, r.composite_score = some q) :
    ∃ pre post best cfg qb, data = pre ++ best :: post ∧
      best.architecture = some cfg ∧ best.composite_score = some qb ∧
      sample_parent data = cfg ∧
      (∀ y ∈ pre, ∀ qy, y.composite_score = some qy → qy < qb) ∧
      (∀ y ∈ post, ∀ qy, y.composite_score = some qy → qy ≤ qb) := by
  cases data with
  | nil => exact absurd rfl hne
  | cons x xs =>
      obtain ⟨pre, post, hdec, hpre, hpost⟩ := pyMaxBy_first_max recordScore xs x
      have hmem : pyMaxBy recordScore x xs ∈ x :: xs := by
        rw [hdec]
        exact List.mem_append_right _ (List.mem_cons_self _ _)
      obtain ⟨⟨cfg, hcfg⟩, qb, hqb⟩ := hwf _ hmem
      have hqbv : recordScore (pyMaxBy recordScore x xs) = qb := by
        simp [recordScore, hqb]
      refine ⟨pre, post, _, cfg, qb, hdec, hcfg, hqb, ?_, ?_, ?_⟩
      · show (pyMaxBy recordScore x xs).architecture.getD archDefault = cfg
        rw [hcfg, Option.getD_some]
      · intro y hy qy hqy
        have hlt := hpre y hy
        have hqyv : recordScore y = qy := by simp [recordScore, hqy]
        rwa [hqyv, hqbv] at hlt
      · intro y hy qy hqy
        have hle := hpost y hy
        have hqyv : recordScore y = qy := by simp [recordScore, hqy]
        rwa [hqyv, hqbv] at hle

/-- C2 witness: after appending a record with composite score 0.9 and then
one with composite score 0.3, `sample_parent` returns the first record's
configuration. -/
theorem sample_parent_picks_first_max_witness :
    ([(⟨some [("p1", Value.vInt 1)], none, some (mkRat 9 10)⟩ : StoredRecord),
      ⟨some [("p2", Value.vInt 2)], none, some (mkRat 3 10)⟩] ≠
        ([] : List StoredRecord)) ∧
    (∃ pre post best cfg qb,
      [(⟨some [("p1", Value.vInt 1)], none, some (mkRat 9 10)⟩ : StoredRecord),
        ⟨some [("p2", Value.vInt 2)], none, some (mkRat 3 10)⟩] =
          pre ++ best :: post ∧
      best.architecture = some cfg ∧ best.composite_score = some qb ∧
      sample_parent
        [⟨some [("p1", Value.vInt 1)], none, some (mkRat 9 10)⟩,
          ⟨some [("p2", Value.vInt 2)], none, some (mkRat 3 10)⟩] = cfg ∧
      (∀ y ∈ pre, ∀ qy, y.composite_score = some qy → qy < qb) ∧
      (∀ y ∈ post, ∀ qy, y.composite_score = some qy → qy ≤ qb)) ∧
    sample_parent
      [⟨some [("p1", Value.vInt 1)], none, some (mkRat 9 10)⟩,
        ⟨some [("p2", Value.vInt 2)], none, some (mkRat 3 10)⟩] =
      [("p1", Value.vInt 1)] :=
  ⟨by decide,
    sample_parent_picks_first_max _ (by decide)
      (by
        intro r hr
        rcases List.mem_cons.mp hr with h | h
        · subst h; exact ⟨⟨_, rfl⟩, _, rfl⟩
        · rcases List.mem_cons.mp h with h | h
          · subst h; exact ⟨⟨_, rfl⟩, _, rfl⟩
          · exact absurd h (List.not_mem_nil _)),
    by decide⟩

/-- C10: on any non-empty history, even one with malformed records,
`sample_parent` still returns a configuration (it never raises): records
missing `composite_score` are ranked with score 0 (the `dict.get` default),
and the returned value is the best-ranked record's `architecture` if
present, else the id-free baseline `{hidden_size: 512, num_layers: 6,
num_heads: 8}`. -/
theorem sample_parent_defensive (data : List StoredRecord) (hne : data ≠ []) :
    ∃ pre post best, data = pre ++ best :: post ∧
      (∀ y ∈ pre, y.composite_score.getD 0 < best.composite_score.getD 0) ∧
      (∀ y ∈ post, y.composite_score.getD 0 ≤ best.composite_score.getD 0) ∧
      sample_parent data = best.architecture.getD
        [("hidden_size", .vInt 512), ("num_layers", .vInt 6),
         ("num_heads", .vInt 8)] := by
  cases data with
  | nil => exact absurd rfl hne
  | cons x xs =>
      obtain ⟨pre, post, hdec, hpre, hpost⟩ := pyMaxBy_first_max recordScore xs x
      exact ⟨pre, post, _, hdec, hpre, hpost, rfl⟩

/-- C10 witness: a history whose best-ranked record (score 0.9, beating a
record with a missing score ranked 0) lacks its `architecture` field yields
the id-free baseline. -/
theorem sample_parent_defensive_witness :
    ([(⟨none, none, some (mkRat 9 10)⟩ : StoredRecord),
      ⟨some [("x", Value.vInt 1)], none, none⟩] ≠ ([] : List StoredRecord)) ∧
    (∃ pre post best,
      [(⟨none, none, some (mkRat 9 10)⟩ : StoredRecord),
        ⟨some [("x", Value.vInt 1)], none, none⟩] = pre ++ best :: post ∧
      (∀ y ∈ pre, y.composite_score.getD 0 < best.composite_score.getD 0) ∧
      (∀ y ∈ post, y.composite_score.getD 0 ≤ best.composite_score.getD 0) ∧
      sample_parent
        [⟨none, none, some (mkRat 9 10)⟩,
          ⟨some [("x", Value.vInt 1)], none, none⟩] =
        best.architecture.getD
          [("hidden_size", .vInt 512), ("num_layers", .vInt 6),
           ("num_heads", .vInt 8)]) ∧
    sample_parent
      [⟨none, none, some (mkRat 9 10)⟩,
        ⟨some [("x", Value.vInt 1)], none, none⟩] =
      [("hidden_size", Value.vInt 512), ("num_layers", Value.vInt 6),
       ("num_heads", Value.vInt 8)] :=
  ⟨by decide, sample_parent_defensive _ (by decide), by decide⟩

/-- C9 counterexample: with a result count of 0 the query returns the empty
list although the (default) corpus is non-empty, and with a result count of
2 against a question matching exactly one corpus sentence it returns one
sentence, not the requested two. -/
theorem query_count_counterexample :
    query defaultCorpus "attention" 0 = [] ∧ defaultCorpus ≠ [] ∧
    (query defaultCorpus "efficiency" 2).length = 1 := by decide

/-- C9 amended: the query returns at most the requested number of matching
corpus sentences — when any corpus sentence contains a (lowercased) question
word, exactly the first `min(count, matches)` matching sentences in corpus
order — falls back to the first `count` corpus sentences when no word of the
question occurs as a substring in any sentence, and returns a non-empty list
whenever the corpus is non-empty and the requested count is at least 1. -/
theorem query_bounded_fallback (corpus : List String) (question : String)
    (k : ℕ) :
    (query corpus question k).length ≤ k ∧
    (corpus ≠ [] → 1 ≤ k → query corpus question k ≠ []) ∧
    ((∀ s ∈ corpus, ∀ w ∈ pyWords (pyLower question),
        pyIn w (pyLower s) = false) →
      query corpus question k = corpus.take k) ∧
    ((∃ s ∈ corpus, ∃ w ∈ pyWords (pyLower question),
        pyIn w (pyLower s) = true) →
      query corpus question k =
        (corpus.filter (fun sent =>
          (pyWords (pyLower question)).any
            (fun word => pyIn word (pyLower sent)))).take k) := by
  have hq : query corpus question k =
      if corpus.filter (fun sent =>
          (pyWords (pyLower question)).any
            (fun word => pyIn word (pyLower sent))) = []
      then corpus.take k
      else (corpus.filter (fun sent =>
          (pyWords (pyLower question)).any
            (fun word => pyIn word (pyLower sent)))).take k := rfl
  refine ⟨?_, ?_, ?_, ?_⟩
  · rw [hq]
    split
    · exact List.length_take_le _ _
    · exact List.length_take_le _ _
  · intro hc hk
    rw [hq]
    split
    · intro h
      rcases List.take_eq_nil_iff.mp h with h0 | h0
      · omega
      · exact hc h0
    · next hres =>
        intro h
        rcases List.take_eq_nil_iff.mp h with h0 | h0
        · omega
        · exact hres h0
  · intro hall
    have hnil : corpus.filter (fun sent =>
        (pyWords (pyLower question)).any
          (fun word => pyIn word (pyLower sent))) = [] := by
      refine List.filter_eq_nil_iff.mpr ?_
      intro s hs
      simp only [Bool.not_eq_true, List.any_eq_false]
      intro w hw
      simp [hall s hs w hw]
    rw [hq, hnil, if_pos rfl]
  · rintro ⟨s, hs, w, hw, hsw⟩
    have hne : corpus.filter (fun sent =>
        (pyWords (pyLower question)).any
          (fun word => pyIn word (pyLower sent))) ≠ [] := by
      intro h0
      exact List.filter_eq_nil_iff.mp h0 s hs
        (List.any_eq_true.mpr ⟨w, hw, hsw⟩)
    rw [hq, if_neg hne]

/-- C9 amended witness: a one-sentence corpus and a matching question with
count 1 produce a non-empty result that is the first matching sentence. -/
theorem query_bounded_fallback_witness :
    (["alpha beta"] ≠ ([] : List String)) ∧ 1 ≤ 1 ∧
    query ["alpha beta"] "alpha" 1 ≠ [] ∧
    (∃ s ∈ ["alpha beta"], ∃ w ∈ pyWords (pyLower "alpha"),
      pyIn w (pyLower s) = true) ∧
    query ["alpha beta"] "alpha" 1 =
      (["alpha beta"].filter (fun sent =>
        (pyWords (pyLower "alpha")).any
          (fun word => pyIn word (pyLower sent)))).take 1 :=
  ⟨by decide, by decide,
    (query_bounded_fallback ["alpha beta"] "alpha" 1).2.1
      (by decide) (by decide),
    by decide,
    (query_bounded_fallback ["alpha beta"] "alpha" 1).2.2.2 (by decide)⟩

end DatLLMArch
